import Mathlib

/-!
Verification development for the `rdma-cdi` tool (github.com/Nativu5/rdma-cdi).

The Go sources are shallowly embedded over `Str := List Char` (Go strings of
runes).  Filesystem state is made explicit: the CDI spec directory is a list of
full path strings for the cleanup operations, and a record of directories plus
written files for spec creation.  `filepath.Join dir f` is modelled as
`dir ++ "/" ++ f`; this coincides with Go's `Join` (which also runs `Clean`)
whenever the concatenation is already a clean path, which holds for every input
considered below.  Serialization (`encoding/json`, `sigs.k8s.io/yaml`) is an
external library and is modelled symbolically: a marshalled document is a tag
(`json`/`yaml`) applied to the spec value.  Log output is ignored.
-/

abbrev Str := List Char

/-- Rune list of a string literal (used to write embedded Go string constants). -/
def str (s : String) : Str := s.data

namespace RdmaCdi

/-! ## pkg/cdi/cdi.go — constants and file naming -/

/-- `FilePrefix = "rdma-cdi"`: prepended to all spec files written by the tool. -/
def filePrefixStr : Str := str "rdma-cdi"

/-- `DefaultOutputDir = "/etc/cdi"`. -/
def defaultOutputDir : Str := str "/etc/cdi"

/-- `strings.ReplaceAll(prefix, "/", "_")` from the source, specialized to its
single-character pattern: the scan replaces each `'/'` by `'_'` and copies every
other character. -/
def replaceSlashes : Str → Str
  | [] => []
  | c :: rest => (if c = '/' then '_' else c) :: replaceSlashes rest

/-- `SpecFileName(prefix, name, format)`: `rdma-cdi_<safePrefix>_<name>.<format>`
(`fmt.Sprintf("%s_%s_%s.%s", FilePrefix, safePrefix, name, format)`). -/
def specFileName (pfx name format : Str) : Str :=
  filePrefixStr ++ str "_" ++ replaceSlashes pfx ++ str "_" ++ name ++ str "." ++ format

/-- `filepath.Join(dir, f)` on already-clean components. -/
def joinPath (dir f : Str) : Str := dir ++ str "/" ++ f

/-! ## path.Base / filepath.Base (Go standard library) -/

/-- Trailing-separator stripping step of Go's `filepath.Base`. -/
def stripTrailingSlashes (p : Str) : Str :=
  (p.reverse.dropWhile (fun c => c == '/')).reverse

/-- Go's `filepath.Base`: `""` gives `"."`; a path of only separators gives
`"/"`; otherwise the last path element after dropping trailing separators. -/
def goBase (p : Str) : Str :=
  if p = [] then str "."
  else
    let q := stripTrailingSlashes p
    if q = [] then str "/"
    else (q.reverse.takeWhile (fun c => c != '/')).reverse

/-! ## pkg/cdi/cdi.go — cleanup -/

/-- The `cleanupFiles` loop: for each path, `os.Stat` (skip when absent), then
either report (dry run) or `os.Remove` and report.  The filesystem is the list
of existing full paths, threaded through the loop; `os.Remove` on an existing
file is modelled as always succeeding.  Returns (removed-or-reported paths in
loop order, filesystem afterwards). -/
def cleanupFiles : List Str → List Str → Bool → List Str × List Str
  | fs, [], _ => ([], fs)
  | fs, p :: ps, dryRun =>
    if p ∈ fs then
      if dryRun then
        let r := cleanupFiles fs ps dryRun
        (p :: r.1, r.2)
      else
        let r := cleanupFiles (fs.erase p) ps dryRun
        (p :: r.1, r.2)
    else cleanupFiles fs ps dryRun

/-- One file matching `filepath.Glob(dir/<patPfx>*<patSuffix>)`: the path lies
directly in `dir` (no further separator) and its base name is
`patPfx ++ mid ++ patSuffix` for some `mid`.  Faithful to `filepath.Match` when
the pattern's literal parts carry no glob metacharacters (`*?[\`): the cleanup
patterns below are literal except for their single `*`. -/
def globMatch (dir patPfx patSuffix p : Str) : Bool :=
  (dir ++ str "/").isPrefixOf p &&
    (let b := p.drop (dir.length + 1)
     !(List.elem '/' b) && patPfx.isPrefixOf b &&
       patSuffix.isSuffixOf (b.drop patPfx.length))

/-- `filepath.Glob` of `dir/rdma-cdi_<safePfx>_*.<ext>` over the existing files
`fs`, in `fs` order (Go returns the same set sorted; no claim depends on the
order). -/
def globMatches (fs : List Str) (dir safePfx ext : Str) : List Str :=
  fs.filter (fun p =>
    globMatch dir (filePrefixStr ++ str "_" ++ safePfx ++ str "_") (str "." ++ ext) p)

/-- The candidate paths handed to `cleanupFiles` by `CleanupSpecs` (both source
branches end in such a call): for a non-empty `name`, the two exact paths built
by the same `Sprintf` shape as `SpecFileName`; for an empty `name`, the glob
matches for `.json` followed by those for `.yaml`. -/
def cleanupCandidates (fs : List Str) (dir' safePfx name : Str) : List Str :=
  if name ≠ [] then
    [joinPath dir' (filePrefixStr ++ str "_" ++ safePfx ++ str "_" ++ name ++ str ".json"),
     joinPath dir' (filePrefixStr ++ str "_" ++ safePfx ++ str "_" ++ name ++ str ".yaml")]
  else
    globMatches fs dir' safePfx (str "json") ++ globMatches fs dir' safePfx (str "yaml")

/-- `CleanupSpecs(dir, prefix, name, dryRun)` from pkg/cdi/cdi.go: empty `dir`
defaults to `/etc/cdi`; non-empty `name` selects the two exact candidate paths
(json and yaml); empty `name` globs `rdma-cdi_<safePrefix>_*.json` and
`...yaml`.  Returns (removed paths, filesystem afterwards). -/
def cleanupSpecs (fs : List Str) (dir pfx name : Str) (dryRun : Bool) :
    List Str × List Str :=
  let dir' := if dir = [] then defaultOutputDir else dir
  cleanupFiles fs (cleanupCandidates fs dir' (replaceSlashes pfx) name) dryRun

/-! ## pkg/types/types.go -/

/-- `types.DeviceSpec`: one host device exposed inside a container. -/
structure DeviceSpec where
  hostPath : Str
  containerPath : Str
  permissions : Str
deriving DecidableEq

/-- `types.RdmaDevice`: one RDMA-capable device record. -/
structure RdmaDevice where
  pciAddress : Str
  ifName : Str
  vendor : Str
  deviceID : Str
  driver : Str
  linkType : Str
  rdmaDevices : List Str
  deviceSpecs : List DeviceSpec
deriving DecidableEq

/-- `types.RequiredRdmaDevices = ["rdma_cm", "umad", "uverbs"]`. -/
def RequiredRdmaDevices : List Str := [str "rdma_cm", str "umad", str "uverbs"]

/-! ## pkg/rdma/rdma.go — validation -/

/-- Go's `strings.Contains(hay, needle)`: the needle occurs as a contiguous
substring (prefix of some suffix) of the hay. -/
def strContains (hay needle : Str) : Bool :=
  match hay with
  | [] => needle.isPrefixOf []
  | c :: t => needle.isPrefixOf (c :: t) || strContains t needle

/-- Outer loop of `VerifyRdmaDevices`: for each still-required device type, the
inner loop (`List.any`) looks for a path whose base name contains the token;
the first missing token is returned as the error. -/
def verifyLoop : List Str → List Str → Except Str Unit
  | [], _ => .ok ()
  | req :: rest, charDevPaths =>
    if charDevPaths.any (fun p => strContains (goBase p) req) then verifyLoop rest charDevPaths
    else .error req

/-- `VerifyRdmaDevices(charDevPaths)`: checks that every required RDMA character
device type (`rdma_cm`, `umad`, `uverbs`) occurs as a substring of the base name
of some path; the error carries the first missing type. -/
def verifyRdmaDevices (charDevPaths : List Str) : Except Str Unit :=
  verifyLoop RequiredRdmaDevices charDevPaths

/-! ## pkg/cdi/cdi.go — spec creation

The CDI document types mirror `tags.cncf.io/container-device-interface`'s
`specs-go` structures as far as the tool populates them. -/

/-- `cdiSpecs.DeviceNode` (fields populated by the tool). -/
structure DeviceNode where
  path : Str
  hostPath : Str
  permissions : Str
deriving DecidableEq

/-- `cdiSpecs.ContainerEdits` (only `DeviceNodes` is populated). -/
structure ContainerEdits where
  deviceNodes : List DeviceNode
deriving DecidableEq

/-- `cdiSpecs.Device`. -/
structure CdiDevice where
  name : Str
  containerEdits : ContainerEdits
deriving DecidableEq

/-- `cdiSpecs.Spec` (fields populated by the tool). -/
structure CdiSpec where
  version : Str
  kind : Str
  devices : List CdiDevice
deriving DecidableEq

/-- `cdiSpecs.CurrentVersion`, a constant of the external CDI library; no claim
depends on its value. -/
def cdiCurrentVersion : Str := str "0.8.0"

/-- Serialized spec bytes, modelled symbolically: the external JSON/YAML
encoders are injective tags on the spec value (the YAML path marshals to JSON
first and converts, hence both are a function of the spec alone). -/
inductive MarshalData where
  | json (spec : CdiSpec)
  | yaml (spec : CdiSpec)
deriving DecidableEq

/-- Error of `marshalSpec`, carrying the offending format string
(`unsupported format %q: use json or yaml`). -/
inductive MarshalError where
  | unsupportedFormat (format : Str)
deriving DecidableEq

/-- Errors of `CreateCDISpec` that the embedding distinguishes (directory
creation and file writes are modelled as always succeeding). -/
inductive CdiError where
  | invalidSpec (msg : Str)
  | cannotMarshal (e : MarshalError)
deriving DecidableEq

/-- ASCII case folding of `strings.ToLower`, character-wise (all format strings
compared against are ASCII). -/
def toLowerStr (s : Str) : Str :=
  s.map (fun c => if 'A' ≤ c ∧ c ≤ 'Z' then Char.ofNat (c.toNat + 32) else c)

/-- `validateSpec`: kind must be non-empty and at least one device present. -/
def validateSpec (spec : CdiSpec) : Except Str Unit :=
  if spec.kind = [] then .error (str "spec kind must not be empty")
  else if spec.devices.length = 0 then .error (str "spec must contain at least one device")
  else .ok ()

/-- `marshalSpec`: dispatches on `strings.ToLower(format)`; `json` and `yaml`
serialize the spec, anything else is an error naming the format. -/
def marshalSpec (spec : CdiSpec) (format : Str) : Except MarshalError MarshalData :=
  if toLowerStr format = str "json" then .ok (.json spec)
  else if toLowerStr format = str "yaml" then .ok (.yaml spec)
  else .error (.unsupportedFormat format)

/-- Filesystem state for spec creation: directories that exist and files with
their contents. -/
structure FSState where
  dirs : List Str
  files : List (Str × MarshalData)
deriving DecidableEq

/-- `os.MkdirAll(dir, 0755)`: ensures the directory exists (parents are not
tracked separately); a no-op when it already exists. -/
def FSState.mkdirAll (fs : FSState) (d : Str) : FSState :=
  { fs with dirs := if d ∈ fs.dirs then fs.dirs else fs.dirs ++ [d] }

/-- `os.WriteFile(p, data, 0644)`: creates or overwrites the file. -/
def FSState.writeFile (fs : FSState) (p : Str) (data : MarshalData) : FSState :=
  { fs with files := (fs.files.filter (fun f => f.1 ≠ p)) ++ [(p, data)] }

/-- `CreateCDISpec(resourcePrefix, resourceName, devices, outputDir, format)`:
builds the CDI document (one device per input, keyed by PCI address, device
nodes from the device's specs), computes the file path via `SpecFileName`,
creates the output directory, validates, marshals, writes.  Returns the call's
result together with the filesystem as left behind. -/
def createCDISpec (resourcePfx resourceName : Str) (devices : List RdmaDevice)
    (outputDir format : Str) (fs : FSState) : Except CdiError Unit × FSState :=
  let cdiDevices := devices.map (fun dev =>
    { name := dev.pciAddress,
      containerEdits := { deviceNodes := dev.deviceSpecs.map (fun s =>
        { path := s.containerPath, hostPath := s.hostPath,
          permissions := s.permissions }) } })
  let spec : CdiSpec :=
    { version := cdiCurrentVersion,
      kind := resourcePfx ++ str "/" ++ resourceName,
      devices := cdiDevices }
  let fileName := specFileName resourcePfx resourceName format
  let filePath := joinPath outputDir fileName
  let fs1 := fs.mkdirAll outputDir
  match validateSpec spec with
  | .error m => (.error (.invalidSpec m), fs1)
  | .ok _ =>
    match marshalSpec spec format with
    | .error e => (.error (.cannotMarshal e), fs1)
    | .ok data => (.ok (), fs1.writeFile filePath data)

/-! ## Package doctor — diagnostics

`fmt.Sprintf`-formatted messages are modelled symbolically: a constructor
carrying exactly the data the format verbs would render. -/

/-- `doctor.Severity` (`PASS` / `WARN` / `FAIL`). -/
inductive Severity where
  | pass
  | warn
  | fail
deriving DecidableEq

/-- Diagnostic messages, one constructor per `fmt.Sprintf` site. -/
inductive Msg where
  | noRdmaCharDevices
  | missingRequiredTypes (count : Nat) (missingType : Str)
  | allRequiredPresent (count : Nat) (paths : List Str)
  | missingKernelModules (missing : List Str)
  | allKernelModulesLoaded (mods : List Str)
  | interfaceIs (ifName : Str)
  | noInterface
  | cannotQueryLink (ifName : Str)
  | linkState (ifName : Str) (up : Bool) (encap : Str) (mtu : Int)
  | cannotReadNetnsMode
  | netnsExclusive (mode : Str)
  | netnsShared (mode : Str)
  | netnsUnknown (mode : Str)
deriving DecidableEq

/-- `doctor.CheckResult`: one diagnostic finding (empty `device` = host scope). -/
structure CheckResult where
  check : Str
  severity : Severity
  message : Msg
  device : Str
deriving DecidableEq

/-- `doctor.Report`. -/
structure Report where
  results : List CheckResult
  hasWarn : Bool
  hasFail : Bool
deriving DecidableEq

/-- The zero value `&Report{}`. -/
def emptyReport : Report := { results := [], hasWarn := false, hasFail := false }

/-- `Report.add`: append a result; a `Warn` sets `hasWarn`, a `Fail` sets
`hasFail`, anything else leaves the flags alone. -/
def Report.add (r : Report) (cr : CheckResult) : Report :=
  { results := r.results ++ [cr],
    hasWarn := if cr.severity = .warn then true else r.hasWarn,
    hasFail := if cr.severity = .fail then true else r.hasFail }

/-- `doctor.MergeReports`: fold every constituent result of every report into a
fresh report via `add` (flags re-derived, input flags ignored). -/
def mergeReports (reports : List Report) : Report :=
  reports.foldl (fun merged r => r.results.foldl Report.add merged) emptyReport

/-- `doctor.requiredKernelModules`. -/
def requiredKernelModules : List Str :=
  [str "ib_core", str "ib_uverbs", str "ib_umad", str "rdma_cm", str "rdma_ucm"]

/-- Live link attributes as obtained from `netlink.LinkByName`. -/
structure LinkAttrs where
  operUp : Bool
  encapType : Str
  mtu : Int

/-- Host state read by the diagnostics: which `/sys/module/<mod>` directories
exist, the link-by-name query, and the content of the RDMA netns mode parameter
file (primary path, else the legacy fallback; `none` when neither is
readable — the classification depends only on the data obtained). -/
structure HostEnv where
  loadedModules : List Str
  linkByName : Str → Option LinkAttrs
  netnsMode : Option Str

/-- `checkKernelModules`: `Fail` naming the missing modules, else `Pass`. -/
def checkKernelModules (report : Report) (env : HostEnv) : Report :=
  let missing := requiredKernelModules.filter (fun m => m ∉ env.loadedModules)
  if missing ≠ [] then
    report.add { check := str "kernel_modules", severity := .fail,
                 message := .missingKernelModules missing, device := [] }
  else
    report.add { check := str "kernel_modules", severity := .pass,
                 message := .allKernelModulesLoaded requiredKernelModules, device := [] }

/-- `checkLinkAttrs`: a failing query is a `Warn`; an operationally-up link a
`Pass`, any other state a `Warn` (the source also refreshes `dev.LinkType`,
a record update no claim depends on). -/
def checkLinkAttrs (report : Report) (dev : RdmaDevice) (env : HostEnv) : Report :=
  match env.linkByName dev.ifName with
  | none =>
    report.add { check := str "link_attrs", severity := .warn,
                 message := .cannotQueryLink dev.ifName, device := dev.pciAddress }
  | some attrs =>
    if attrs.operUp then
      report.add { check := str "link_state", severity := .pass,
                   message := .linkState dev.ifName attrs.operUp attrs.encapType attrs.mtu,
                   device := dev.pciAddress }
    else
      report.add { check := str "link_state", severity := .warn,
                   message := .linkState dev.ifName attrs.operUp attrs.encapType attrs.mtu,
                   device := dev.pciAddress }

/-- `strings.TrimSpace` (whitespace per `Char.isWhitespace`). -/
def trimSpace (s : Str) : Str :=
  ((s.dropWhile (fun c => c.isWhitespace)).reverse.dropWhile (fun c => c.isWhitespace)).reverse

/-- `checkRdmaNetnsMode`: unreadable parameter is a `Warn`; the trimmed value is
classified as exclusive (`Pass`), shared (`Warn`) or unknown (`Warn`). -/
def checkRdmaNetnsMode (report : Report) (pciAddr : Str) (env : HostEnv) : Report :=
  match env.netnsMode with
  | none =>
    report.add { check := str "rdma_netns_mode", severity := .warn,
                 message := .cannotReadNetnsMode, device := pciAddr }
  | some data =>
    let mode := trimSpace data
    if mode = str "exclusive" ∨ mode = str "1" ∨ mode = str "Y" then
      report.add { check := str "rdma_netns_mode", severity := .pass,
                   message := .netnsExclusive mode, device := pciAddr }
    else if mode = str "shared" ∨ mode = str "0" ∨ mode = str "N" then
      report.add { check := str "rdma_netns_mode", severity := .warn,
                   message := .netnsShared mode, device := pciAddr }
    else
      report.add { check := str "rdma_netns_mode", severity := .warn,
                   message := .netnsUnknown mode, device := pciAddr }

/-- Step 1 of `DiagnoseDevice` (inline in the source): RDMA character devices —
presence and required types. -/
def checkCharDevices (report : Report) (dev : RdmaDevice) : Report :=
  if dev.rdmaDevices = [] then
    report.add { check := str "rdma_devices", severity := .fail,
                 message := .noRdmaCharDevices, device := dev.pciAddress }
  else
    match verifyRdmaDevices dev.rdmaDevices with
    | .error m =>
      report.add { check := str "rdma_devices", severity := .fail,
                   message := .missingRequiredTypes dev.rdmaDevices.length m,
                   device := dev.pciAddress }
    | .ok _ =>
      report.add { check := str "rdma_devices", severity := .pass,
                   message := .allRequiredPresent dev.rdmaDevices.length dev.rdmaDevices,
                   device := dev.pciAddress }

/-- Step 3 of `DiagnoseDevice` (inline in the source): network interface and
link attributes. -/
def checkNetInterface (report : Report) (dev : RdmaDevice) (env : HostEnv) : Report :=
  if dev.ifName ≠ [] then
    checkLinkAttrs
      (report.add { check := str "net_interface", severity := .pass,
                    message := .interfaceIs dev.ifName, device := dev.pciAddress })
      dev env
  else
    report.add { check := str "net_interface", severity := .warn,
                 message := .noInterface, device := dev.pciAddress }

/-- `doctor.DiagnoseDevice`: the fixed check sequence — character devices,
kernel modules, network interface (with link sub-check), RDMA netns mode. -/
def diagnoseDevice (dev : RdmaDevice) (env : HostEnv) : Report :=
  checkRdmaNetnsMode
    (checkNetInterface (checkKernelModules (checkCharDevices emptyReport dev) env) dev env)
    dev.pciAddress env

/-- Flag invariant of a report: each summary flag is set exactly when a result
of the corresponding severity is present. -/
def ReportWf (r : Report) : Prop :=
  (r.hasWarn = true ↔ ∃ cr ∈ r.results, cr.severity = .warn) ∧
  (r.hasFail = true ↔ ∃ cr ∈ r.results, cr.severity = .fail)

/-! ## Helper lemmas: strings and `goBase` -/

theorem takeWhile_all {p : Char → Bool} {l : Str} (h : ∀ x ∈ l, p x = true) :
    l.takeWhile p = l := by
  induction l with
  | nil => rfl
  | cons c t ih =>
    rw [List.takeWhile_cons, if_pos (h c (List.mem_cons_self c t))]
    rw [ih (fun x hx => h x (List.mem_cons_of_mem c hx))]

theorem takeWhile_append_all {p : Char → Bool} {l m : Str} (h : ∀ x ∈ l, p x = true) :
    (l ++ m).takeWhile p = l ++ m.takeWhile p := by
  rw [List.takeWhile_append, takeWhile_all h]
  simp

theorem dropWhile_of_head {p : Char → Bool} {l : Str}
    (h : ∀ hd ∈ l.head?, p hd = false) : l.dropWhile p = l := by
  cases l with
  | nil => rfl
  | cons c t => rw [List.dropWhile_cons, if_neg (by simp [h c rfl])]

/-- The base name of a clean path `dir ++ "/" ++ b` with a slash-free non-empty
final element is that element. -/
theorem goBase_append {d b : Str} (hb : b ≠ []) (hnb : '/' ∉ b) :
    goBase (d ++ str "/" ++ b) = b := by
  have hrev : (d ++ str "/" ++ b).reverse = b.reverse ++ ('/' :: d.reverse) := by
    simp [str, List.reverse_append]
  have hlast : ∀ hd ∈ (d ++ str "/" ++ b).reverse.head?, (hd == '/') = false := by
    intro hd hhd
    rw [hrev] at hhd
    cases hcb : b.reverse with
    | nil => exact absurd (List.reverse_eq_nil_iff.mp hcb) hb
    | cons x xs =>
      rw [hcb] at hhd
      simp only [List.cons_append, List.head?_cons, Option.mem_def, Option.some.injEq] at hhd
      have hxb : x ∈ b := by
        rw [← List.mem_reverse, hcb]
        exact List.mem_cons_self x xs
      have hxs : x ≠ '/' := fun he => hnb (he ▸ hxb)
      rw [← hhd]
      simp [hxs]
  have hne : d ++ str "/" ++ b ≠ [] := by
    simp [str]
  have hstrip : stripTrailingSlashes (d ++ str "/" ++ b) = d ++ str "/" ++ b := by
    unfold stripTrailingSlashes
    rw [dropWhile_of_head hlast, List.reverse_reverse]
  unfold goBase
  rw [if_neg hne]
  simp only [hstrip, if_neg hne]
  rw [hrev]
  rw [takeWhile_append_all (by
    intro x hx
    have : x ∈ b := (List.mem_reverse).mp hx
    simp only [bne_iff_ne, ne_eq, decide_eq_true_eq]
    exact fun he => hnb (he ▸ this))]
  rw [show List.takeWhile (fun c => c != '/') ('/' :: d.reverse) = [] from rfl]
  simp

theorem getLast?_append_right {l m : Str} {c : Char} (h : m.getLast? = some c) :
    (l ++ m).getLast? = some c := by
  rw [List.getLast?_append, h]
  rfl

/-- The two exact-match candidate paths always differ (their last characters
differ). -/
theorem joinPath_json_ne_yaml (d d' u v : Str) :
    joinPath d (u ++ str ".json") ≠ joinPath d' (v ++ str ".yaml") := by
  intro h
  have h1 : (joinPath d (u ++ str ".json")).getLast? = some 'n' :=
    getLast?_append_right (getLast?_append_right rfl)
  have h2 : (joinPath d' (v ++ str ".yaml")).getLast? = some 'l' :=
    getLast?_append_right (getLast?_append_right rfl)
  rw [h, h2] at h1
  simp at h1

theorem slash_not_mem_replaceSlashes (pfx : Str) : '/' ∉ replaceSlashes pfx := by
  induction pfx with
  | nil => simp [replaceSlashes]
  | cons c t ih =>
    simp only [replaceSlashes, List.mem_cons, not_or]
    refine ⟨?_, ih⟩
    by_cases hc : c = '/'
    · rw [if_pos hc]
      decide
    · rw [if_neg hc]
      exact fun he => hc he.symm

/-! ## Helper lemmas: `cleanupFiles` -/

theorem cleanupFiles_cons_mem_dry {fs : List Str} {p : Str} (ps : List Str) (h : p ∈ fs) :
    cleanupFiles fs (p :: ps) true
      = (p :: (cleanupFiles fs ps true).1, (cleanupFiles fs ps true).2) := by
  simp [cleanupFiles, h]

theorem cleanupFiles_cons_mem_real {fs : List Str} {p : Str} (ps : List Str) (h : p ∈ fs) :
    cleanupFiles fs (p :: ps) false
      = (p :: (cleanupFiles (fs.erase p) ps false).1, (cleanupFiles (fs.erase p) ps false).2) := by
  simp [cleanupFiles, h]

theorem cleanupFiles_cons_not_mem {fs : List Str} {p : Str} (ps : List Str) (b : Bool)
    (h : p ∉ fs) : cleanupFiles fs (p :: ps) b = cleanupFiles fs ps b := by
  simp [cleanupFiles, h]

theorem cleanupFiles_removed_subset {fs ps : List Str} {b : Bool} :
    ∀ p ∈ (cleanupFiles fs ps b).1, p ∈ ps := by
  induction ps generalizing fs with
  | nil => simp [cleanupFiles]
  | cons q qs ih =>
    intro p hp
    by_cases hq : q ∈ fs
    · cases b with
      | true =>
        rw [cleanupFiles_cons_mem_dry qs hq] at hp
        rcases List.mem_cons.mp hp with h | h
        · exact h ▸ List.mem_cons_self q qs
        · exact List.mem_cons_of_mem q (ih _ h)
      | false =>
        rw [cleanupFiles_cons_mem_real qs hq] at hp
        rcases List.mem_cons.mp hp with h | h
        · exact h ▸ List.mem_cons_self q qs
        · exact List.mem_cons_of_mem q (ih _ h)
    · rw [cleanupFiles_cons_not_mem qs b hq] at hp
      exact List.mem_cons_of_mem q (ih _ hp)

theorem cleanupFiles_keeps {fs ps : List Str} {b : Bool} {q : Str}
    (hfs : q ∈ fs) (hps : q ∉ ps) : q ∈ (cleanupFiles fs ps b).2 := by
  induction ps generalizing fs with
  | nil => simpa [cleanupFiles]
  | cons p pt ih =>
    have hqp : q ≠ p := fun he => hps (he ▸ List.mem_cons_self p pt)
    have hpt : q ∉ pt := fun hm => hps (List.mem_cons_of_mem p hm)
    by_cases hp : p ∈ fs
    · cases b with
      | true =>
        rw [cleanupFiles_cons_mem_dry pt hp]
        exact ih hfs hpt
      | false =>
        rw [cleanupFiles_cons_mem_real pt hp]
        exact ih ((List.mem_erase_of_ne hqp).mpr hfs) hpt
    · rw [cleanupFiles_cons_not_mem pt b hp]
      exact ih hfs hpt

theorem cleanupFiles_dry (fs ps : List Str) :
    cleanupFiles fs ps true = (ps.filter (fun p => decide (p ∈ fs)), fs) := by
  induction ps with
  | nil => rfl
  | cons p pt ih =>
    by_cases hp : p ∈ fs
    · rw [cleanupFiles_cons_mem_dry pt hp, ih, List.filter_cons, if_pos (by simpa using hp)]
    · rw [cleanupFiles_cons_not_mem pt true hp, ih, List.filter_cons,
        if_neg (by simpa using hp)]

theorem cleanupFiles_real_removed {ps : List Str} (fs : List Str) (hnd : ps.Nodup) :
    (cleanupFiles fs ps false).1 = ps.filter (fun p => decide (p ∈ fs)) := by
  induction ps generalizing fs with
  | nil => rfl
  | cons p pt ih =>
    rw [List.nodup_cons] at hnd
    by_cases hp : p ∈ fs
    · rw [cleanupFiles_cons_mem_real pt hp]
      rw [List.filter_cons, if_pos (by simpa using hp)]
      show p :: (cleanupFiles (fs.erase p) pt false).1 = _
      rw [ih (fs.erase p) hnd.2]
      congr 1
      apply List.filter_congr
      intro q hq
      have hqp : q ≠ p := fun he => hnd.1 (he ▸ hq)
      simp [List.mem_erase_of_ne hqp]
    · rw [cleanupFiles_cons_not_mem pt false hp]
      rw [List.filter_cons, if_neg (by simpa using hp)]
      exact ih fs hnd.2

/-! ## Helper lemmas: glob matching and cleanup candidates -/

theorem globMatch_spec {dir pp ps p : Str} (h : globMatch dir pp ps p = true) :
    ∃ b, p = dir ++ str "/" ++ b ∧ '/' ∉ b ∧ pp <+: b ∧ ps <:+ b := by
  unfold globMatch at h
  simp only [Bool.and_eq_true] at h
  obtain ⟨h1, ⟨h2, h3⟩, h4⟩ := h
  obtain ⟨t, ht⟩ := (List.isPrefixOf_iff_prefix).mp h1
  have hl : (dir ++ str "/").length = dir.length + 1 := by simp [str]
  have hb : p.drop (dir.length + 1) = t := by
    rw [← ht, ← hl, List.drop_left]
  rw [hb] at h2 h3 h4
  refine ⟨t, ht.symm, ?_, (List.isPrefixOf_iff_prefix).mp h3, ?_⟩
  · intro hm
    have he : List.elem '/' t = true := List.elem_iff.mpr hm
    rw [he] at h2
    exact absurd h2 (by decide)
  · exact List.IsSuffix.trans ((List.isSuffixOf_iff_suffix).mp h4) (List.drop_suffix _ _)

theorem globMatches_spec {fs : List Str} {dir sp ext p : Str}
    (hp : p ∈ globMatches fs dir sp ext) :
    p ∈ fs ∧ ∃ b, p = dir ++ str "/" ++ b ∧ '/' ∉ b ∧
      (filePrefixStr ++ str "_" ++ sp ++ str "_") <+: b ∧ (str "." ++ ext) <:+ b := by
  unfold globMatches at hp
  have h := List.mem_filter.mp hp
  exact ⟨h.1, globMatch_spec h.2⟩

theorem globMatches_ext_suffix {fs : List Str} {dir sp ext p : Str}
    (hp : p ∈ globMatches fs dir sp ext) : (str "." ++ ext) <:+ p := by
  obtain ⟨-, b, hpb, -, -, hsb⟩ := globMatches_spec hp
  rw [hpb]
  exact List.IsSuffix.trans hsb (List.suffix_append _ _)

theorem not_json_and_yaml_suffix {p : Str} (h1 : str ".json" <:+ p)
    (h2 : str ".yaml" <:+ p) : False := by
  obtain ⟨t1, e1⟩ := h1
  obtain ⟨t2, e2⟩ := h2
  rw [← e2] at e1
  have hlen := congrArg List.length e1
  rw [List.length_append, List.length_append,
    show (str ".json").length = 5 from rfl, show (str ".yaml").length = 5 from rfl] at hlen
  have hl : t1.length = t2.length := by omega
  have := List.append_inj e1 hl
  exact absurd this.2 (by decide)

theorem slash_not_mem_exact {sp name ext : Str} (hsp : '/' ∉ sp) (hname : '/' ∉ name)
    (hext : '/' ∉ ext) :
    '/' ∉ filePrefixStr ++ str "_" ++ sp ++ str "_" ++ name ++ ext := by
  intro hm
  rcases List.mem_append.mp hm with hm | hm
  · rcases List.mem_append.mp hm with hm | hm
    · rcases List.mem_append.mp hm with hm | hm
      · rcases List.mem_append.mp hm with hm | hm
        · rcases List.mem_append.mp hm with hm | hm
          · exact absurd hm (by decide)
          · exact absurd hm (by decide)
        · exact hsp hm
      · exact absurd hm (by decide)
    · exact hname hm
  · exact hext hm

theorem toolPfx_prefix_exact (sp name ext : Str) :
    str "rdma-cdi_" <+: filePrefixStr ++ str "_" ++ sp ++ str "_" ++ name ++ ext := by
  have hsh : filePrefixStr ++ str "_" ++ sp ++ str "_" ++ name ++ ext
      = (filePrefixStr ++ str "_") ++ (sp ++ (str "_" ++ (name ++ ext))) := by
    simp [List.append_assoc]
  rw [hsh, show str "rdma-cdi_" = filePrefixStr ++ str "_" from rfl]
  exact List.prefix_append _ _

theorem ne_nil_of_toolPfx {b : Str} (h : str "rdma-cdi_" <+: b) : b ≠ [] := by
  intro h0
  rw [h0] at h
  exact absurd h.length_le (by decide)

/-- Every candidate path that `CleanupSpecs` can hand to `cleanupFiles` — when
the name argument is free of path separators — is a file directly inside the
directory whose base name starts with `rdma-cdi_` and which ends in `.json` or
`.yaml`. -/
theorem cleanupCandidates_good {fs : List Str} {dir sp name : Str}
    (hsp : '/' ∉ sp) (hname : '/' ∉ name) :
    ∀ p ∈ cleanupCandidates fs dir sp name,
      str "rdma-cdi_" <+: goBase p ∧ (str ".json" <:+ p ∨ str ".yaml" <:+ p) := by
  intro p hp
  unfold cleanupCandidates at hp
  split at hp
  · -- exact-name branch
    have hgen : ∀ ext : Str, '/' ∉ ext →
        p = joinPath dir (filePrefixStr ++ str "_" ++ sp ++ str "_" ++ name ++ ext) →
        str "rdma-cdi_" <+: goBase p ∧ ext <:+ p := by
      intro ext hext he
      have hpre := toolPfx_prefix_exact sp name ext
      have hB := goBase_append (d := dir) (ne_nil_of_toolPfx hpre)
        (slash_not_mem_exact hsp hname hext)
      constructor
      · rw [he, show joinPath dir (filePrefixStr ++ str "_" ++ sp ++ str "_" ++ name ++ ext)
            = dir ++ str "/" ++ (filePrefixStr ++ str "_" ++ sp ++ str "_" ++ name ++ ext)
            from rfl, hB]
        exact hpre
      · rw [he]
        exact List.IsSuffix.trans (List.suffix_append _ _) (List.suffix_append _ _)
    rcases List.mem_cons.mp hp with he | hp2
    · have h := hgen (str ".json") (by decide) he
      exact ⟨h.1, Or.inl h.2⟩
    · rcases List.mem_cons.mp hp2 with he | hf
      · have h := hgen (str ".yaml") (by decide) he
        exact ⟨h.1, Or.inr h.2⟩
      · exact absurd hf (List.not_mem_nil p)
  · -- glob branch
    have hgen : ∀ ext : Str, p ∈ globMatches fs dir sp ext →
        str "rdma-cdi_" <+: goBase p ∧ (str "." ++ ext) <:+ p := by
      intro ext hpm
      obtain ⟨-, b, hpb, hnb, hppb, hsb⟩ := globMatches_spec hpm
      have hpre : str "rdma-cdi_" <+: b := by
        refine List.IsPrefix.trans ?_ hppb
        have hsh : filePrefixStr ++ str "_" ++ sp ++ str "_"
            = (filePrefixStr ++ str "_") ++ (sp ++ str "_") := by
          simp [List.append_assoc]
        rw [hsh, show str "rdma-cdi_" = filePrefixStr ++ str "_" from rfl]
        exact List.prefix_append _ _
      refine ⟨?_, ?_⟩
      · rw [hpb, goBase_append (ne_nil_of_toolPfx hpre) hnb]
        exact hpre
      · rw [hpb]
        exact List.IsSuffix.trans hsb (List.suffix_append _ _)
    rcases List.mem_append.mp hp with hm | hm
    · have h := hgen (str "json") hm
      exact ⟨h.1, Or.inl h.2⟩
    · have h := hgen (str "yaml") hm
      exact ⟨h.1, Or.inr h.2⟩

theorem cleanupCandidates_nodup (fs : List Str) (dir sp name : Str) (hnd : fs.Nodup) :
    (cleanupCandidates fs dir sp name).Nodup := by
  unfold cleanupCandidates
  split
  · refine List.nodup_cons.mpr ⟨?_, List.nodup_singleton _⟩
    intro hm
    rcases List.mem_cons.mp hm with he | hf
    · exact joinPath_json_ne_yaml dir dir _ _ he
    · exact absurd hf (List.not_mem_nil _)
  · refine List.Nodup.append (hnd.filter _) (hnd.filter _) ?_
    intro p hpj hpy
    exact not_json_and_yaml_suffix (globMatches_ext_suffix hpj) (globMatches_ext_suffix hpy)

/-! ## Helper lemmas: `verifyRdmaDevices` -/

theorem verifyLoop_ok_iff (reqs charDevPaths : List Str) :
    verifyLoop reqs charDevPaths = .ok () ↔
      ∀ req ∈ reqs, charDevPaths.any (fun p => strContains (goBase p) req) = true := by
  induction reqs with
  | nil => simp [verifyLoop]
  | cons r rest ih =>
    by_cases hr : charDevPaths.any (fun p => strContains (goBase p) r) = true
    · rw [verifyLoop, if_pos hr]
      simp only [List.forall_mem_cons, hr, true_and]
      exact ih
    · rw [verifyLoop, if_neg hr]
      simp only [List.forall_mem_cons]
      constructor
      · intro h
        exact absurd h (by simp)
      · intro h
        exact absurd h.1 hr

theorem perm_any {α : Type} {l l' : List α} (h : l.Perm l') (f : α → Bool) :
    l.any f = l'.any f := by
  cases hb : l'.any f with
  | true =>
    obtain ⟨x, hx, hfx⟩ := List.any_eq_true.mp hb
    exact List.any_eq_true.mpr ⟨x, h.mem_iff.mpr hx, hfx⟩
  | false =>
    rw [List.any_eq_false] at hb ⊢
    exact fun x hx => hb x (h.mem_iff.mp hx)

theorem dup_any {α : Type} {l : List α} {a : α} (ha : a ∈ l) (f : α → Bool) :
    (a :: l).any f = l.any f := by
  cases hfa : f a with
  | true => simp [List.any_cons, hfa, List.any_eq_true.mpr ⟨a, ha, hfa⟩]
  | false => simp [List.any_cons, hfa]

theorem verifyLoop_congr {paths paths' : List Str}
    (h : ∀ req : Str, paths.any (fun p => strContains (goBase p) req)
        = paths'.any (fun p => strContains (goBase p) req)) (reqs : List Str) :
    verifyLoop reqs paths = verifyLoop reqs paths' := by
  induction reqs with
  | nil => rfl
  | cons r rest ih =>
    rw [verifyLoop, verifyLoop, h r, ih]

/-! ## Helper lemmas: `specFileName` -/

theorem replaceSlashes_eq_map (l : Str) :
    replaceSlashes l = l.map (fun c => if c = '/' then '_' else c) := by
  induction l with
  | nil => rfl
  | cons c t ih => rw [replaceSlashes, List.map_cons, ih]

theorem countP_zip_replaceSlashes (l : Str) :
    (l.zip (replaceSlashes l)).countP (fun ab => ab.1 != ab.2) = l.count '/' := by
  induction l with
  | nil => rfl
  | cons c t ih =>
    rw [replaceSlashes, List.zip_cons_cons, List.countP_cons, ih, List.count_cons]
    by_cases hc : c = '/'
    · rw [if_pos hc, hc]
      norm_num
      decide
    · rw [if_neg hc]
      have h1 : ((c, c).1 != (c, c).2) = false := by simp
      have h2 : (c == '/') = false := by simp [hc]
      rw [h1, h2]

theorem all_zip_replaceSlashes_unchanged (l : Str) :
    (l.zip (replaceSlashes l)).all (fun ab => ab.1 == '/' || ab.2 == ab.1) = true := by
  induction l with
  | nil => rfl
  | cons c t ih =>
    rw [replaceSlashes, List.zip_cons_cons, List.all_cons, ih, Bool.and_true]
    by_cases hc : c = '/' <;> simp [hc]

theorem all_zip_replaceSlashes_slash (l : Str) :
    (l.zip (replaceSlashes l)).all (fun ab => (!(ab.1 == '/')) || ab.2 == '_') = true := by
  induction l with
  | nil => rfl
  | cons c t ih =>
    rw [replaceSlashes, List.zip_cons_cons, List.all_cons, ih, Bool.and_true]
    by_cases hc : c = '/' <;> simp [hc]

/-! ## Helper lemmas: reports -/

theorem add_results (r : Report) (cr : CheckResult) :
    (r.add cr).results = r.results ++ [cr] := rfl

theorem add_hasWarn (r : Report) (cr : CheckResult) :
    (r.add cr).hasWarn = (r.hasWarn || (cr.severity == Severity.warn)) := by
  unfold Report.add
  by_cases hc : cr.severity = .warn <;> simp [hc]

theorem add_hasFail (r : Report) (cr : CheckResult) :
    (r.add cr).hasFail = (r.hasFail || (cr.severity == Severity.fail)) := by
  unfold Report.add
  by_cases hc : cr.severity = .fail <;> simp [hc]

theorem foldl_add_results (crs : List CheckResult) (r : Report) :
    (crs.foldl Report.add r).results = r.results ++ crs := by
  induction crs generalizing r with
  | nil => simp
  | cons c t ih =>
    rw [List.foldl_cons, ih, add_results]
    simp

theorem foldl_add_hasWarn (crs : List CheckResult) (r : Report) :
    (crs.foldl Report.add r).hasWarn
      = (r.hasWarn || crs.any (fun cr => cr.severity == Severity.warn)) := by
  induction crs generalizing r with
  | nil => simp
  | cons c t ih =>
    rw [List.foldl_cons, ih, add_hasWarn, List.any_cons, Bool.or_assoc]

theorem foldl_add_hasFail (crs : List CheckResult) (r : Report) :
    (crs.foldl Report.add r).hasFail
      = (r.hasFail || crs.any (fun cr => cr.severity == Severity.fail)) := by
  induction crs generalizing r with
  | nil => simp
  | cons c t ih =>
    rw [List.foldl_cons, ih, add_hasFail, List.any_cons, Bool.or_assoc]

theorem mergeAux_spec (reports : List Report) (init : Report) :
    (reports.foldl (fun merged r => r.results.foldl Report.add merged) init).results
        = init.results ++ (reports.map Report.results).flatten ∧
    (reports.foldl (fun merged r => r.results.foldl Report.add merged) init).hasWarn
        = (init.hasWarn
            || ((reports.map Report.results).flatten.any (fun cr => cr.severity == Severity.warn))) ∧
    (reports.foldl (fun merged r => r.results.foldl Report.add merged) init).hasFail
        = (init.hasFail
            || ((reports.map Report.results).flatten.any (fun cr => cr.severity == Severity.fail))) := by
  induction reports generalizing init with
  | nil => simp
  | cons rp t ih =>
    rw [List.foldl_cons]
    obtain ⟨ih1, ih2, ih3⟩ := ih (rp.results.foldl Report.add init)
    refine ⟨?_, ?_, ?_⟩
    · rw [ih1, foldl_add_results]
      simp
    · rw [ih2, foldl_add_hasWarn]
      simp [Bool.or_assoc, List.any_append]
    · rw [ih3, foldl_add_hasFail]
      simp [Bool.or_assoc, List.any_append]

theorem mergeReports_results (reports : List Report) :
    (mergeReports reports).results = (reports.map Report.results).flatten := by
  have h := (mergeAux_spec reports emptyReport).1
  simpa [mergeReports, emptyReport] using h

theorem mergeReports_hasWarn (reports : List Report) :
    (mergeReports reports).hasWarn
      = ((reports.map Report.results).flatten.any (fun cr => cr.severity == Severity.warn)) := by
  have h := (mergeAux_spec reports emptyReport).2.1
  simpa [mergeReports, emptyReport] using h

theorem mergeReports_hasFail (reports : List Report) :
    (mergeReports reports).hasFail
      = ((reports.map Report.results).flatten.any (fun cr => cr.severity == Severity.fail)) := by
  have h := (mergeAux_spec reports emptyReport).2.2
  simpa [mergeReports, emptyReport] using h

theorem wf_emptyReport : ReportWf emptyReport := by
  constructor <;> simp [emptyReport]

theorem flag_or_iff {b : Bool} {res : List CheckResult} {cr : CheckResult} {sev : Severity}
    (h : b = true ↔ ∃ x ∈ res, x.severity = sev) :
    (b || (cr.severity == sev)) = true ↔ ∃ x ∈ res ++ [cr], x.severity = sev := by
  rw [Bool.or_eq_true, h, beq_iff_eq]
  constructor
  · rintro (⟨x, hx, hxs⟩ | he)
    · exact ⟨x, List.mem_append.mpr (Or.inl hx), hxs⟩
    · exact ⟨cr, List.mem_append.mpr (Or.inr (by simp)), he⟩
  · rintro ⟨x, hx, hxs⟩
    rcases List.mem_append.mp hx with hx | hx
    · exact Or.inl ⟨x, hx, hxs⟩
    · exact Or.inr ((List.mem_singleton.mp hx) ▸ hxs)

theorem wf_add {r : Report} (cr : CheckResult) (h : ReportWf r) : ReportWf (r.add cr) := by
  obtain ⟨hw, hf⟩ := h
  constructor
  · rw [add_hasWarn, add_results]
    exact flag_or_iff hw
  · rw [add_hasFail, add_results]
    exact flag_or_iff hf

theorem wf_checkKernelModules {r : Report} (env : HostEnv) (h : ReportWf r) :
    ReportWf (checkKernelModules r env) := by
  unfold checkKernelModules
  dsimp only
  split <;> exact wf_add _ h

theorem wf_checkLinkAttrs {r : Report} (dev : RdmaDevice) (env : HostEnv) (h : ReportWf r) :
    ReportWf (checkLinkAttrs r dev env) := by
  unfold checkLinkAttrs
  cases env.linkByName dev.ifName with
  | none => exact wf_add _ h
  | some attrs =>
    dsimp only
    split <;> exact wf_add _ h

theorem wf_checkRdmaNetnsMode {r : Report} (pciAddr : Str) (env : HostEnv) (h : ReportWf r) :
    ReportWf (checkRdmaNetnsMode r pciAddr env) := by
  unfold checkRdmaNetnsMode
  cases env.netnsMode with
  | none => exact wf_add _ h
  | some data =>
    dsimp only
    split
    · exact wf_add _ h
    · split <;> exact wf_add _ h

theorem wf_checkCharDevices {r : Report} (dev : RdmaDevice) (h : ReportWf r) :
    ReportWf (checkCharDevices r dev) := by
  unfold checkCharDevices
  split
  · exact wf_add _ h
  · split <;> exact wf_add _ h

theorem wf_checkNetInterface {r : Report} (dev : RdmaDevice) (env : HostEnv) (h : ReportWf r) :
    ReportWf (checkNetInterface r dev env) := by
  unfold checkNetInterface
  split
  · exact wf_checkLinkAttrs _ _ (wf_add _ h)
  · exact wf_add _ h

theorem wf_diagnoseDevice (dev : RdmaDevice) (env : HostEnv) :
    ReportWf (diagnoseDevice dev env) := by
  unfold diagnoseDevice
  exact wf_checkRdmaNetnsMode _ _
    (wf_checkNetInterface _ _ (wf_checkKernelModules _ (wf_checkCharDevices _ wf_emptyReport)))

theorem mem_add {r : Report} {c : CheckResult} (cr : CheckResult) (h : c ∈ r.results) :
    c ∈ (r.add cr).results := by
  rw [add_results]
  exact List.mem_append.mpr (Or.inl h)

theorem mem_add_self (r : Report) (cr : CheckResult) : cr ∈ (r.add cr).results := by
  rw [add_results]
  exact List.mem_append.mpr (Or.inr (by simp))

theorem hasFail_add {r : Report} (cr : CheckResult) (h : r.hasFail = true) :
    (r.add cr).hasFail = true := by
  rw [add_hasFail, h]
  simp

theorem mem_checkKernelModules {r : Report} {c : CheckResult} (env : HostEnv)
    (h : c ∈ r.results) : c ∈ (checkKernelModules r env).results := by
  unfold checkKernelModules
  dsimp only
  split <;> exact mem_add _ h

theorem mem_checkLinkAttrs {r : Report} {c : CheckResult} (dev : RdmaDevice) (env : HostEnv)
    (h : c ∈ r.results) : c ∈ (checkLinkAttrs r dev env).results := by
  unfold checkLinkAttrs
  cases env.linkByName dev.ifName with
  | none => exact mem_add _ h
  | some attrs =>
    dsimp only
    split <;> exact mem_add _ h

theorem mem_checkRdmaNetnsMode {r : Report} {c : CheckResult} (pciAddr : Str) (env : HostEnv)
    (h : c ∈ r.results) : c ∈ (checkRdmaNetnsMode r pciAddr env).results := by
  unfold checkRdmaNetnsMode
  cases env.netnsMode with
  | none => exact mem_add _ h
  | some data =>
    dsimp only
    split
    · exact mem_add _ h
    · split <;> exact mem_add _ h

theorem mem_checkNetInterface {r : Report} {c : CheckResult} (dev : RdmaDevice) (env : HostEnv)
    (h : c ∈ r.results) : c ∈ (checkNetInterface r dev env).results := by
  unfold checkNetInterface
  split
  · exact mem_checkLinkAttrs _ _ (mem_add _ h)
  · exact mem_add _ h

theorem hasFail_checkKernelModules {r : Report} (env : HostEnv) (h : r.hasFail = true) :
    (checkKernelModules r env).hasFail = true := by
  unfold checkKernelModules
  dsimp only
  split <;> exact hasFail_add _ h

theorem hasFail_checkLinkAttrs {r : Report} (dev : RdmaDevice) (env : HostEnv)
    (h : r.hasFail = true) : (checkLinkAttrs r dev env).hasFail = true := by
  unfold checkLinkAttrs
  cases env.linkByName dev.ifName with
  | none => exact hasFail_add _ h
  | some attrs =>
    dsimp only
    split <;> exact hasFail_add _ h

theorem hasFail_checkRdmaNetnsMode {r : Report} (pciAddr : Str) (env : HostEnv)
    (h : r.hasFail = true) : (checkRdmaNetnsMode r pciAddr env).hasFail = true := by
  unfold checkRdmaNetnsMode
  cases env.netnsMode with
  | none => exact hasFail_add _ h
  | some data =>
    dsimp only
    split
    · exact hasFail_add _ h
    · split <;> exact hasFail_add _ h

theorem hasFail_checkNetInterface {r : Report} (dev : RdmaDevice) (env : HostEnv)
    (h : r.hasFail = true) : (checkNetInterface r dev env).hasFail = true := by
  unfold checkNetInterface
  split
  · exact hasFail_checkLinkAttrs _ _ (hasFail_add _ h)
  · exact hasFail_add _ h

/-- Any result present after the first (character-device) step of
`DiagnoseDevice` survives into the final report. -/
theorem diagnose_tail_mono {r0 : Report} {c : CheckResult} (dev : RdmaDevice) (env : HostEnv)
    (hm : c ∈ r0.results) :
    c ∈ (checkRdmaNetnsMode (checkNetInterface (checkKernelModules r0 env) dev env)
          dev.pciAddress env).results :=
  mem_checkRdmaNetnsMode _ _ (mem_checkNetInterface _ _ (mem_checkKernelModules _ hm))

/-- A `hasFail` flag set after the first step of `DiagnoseDevice` stays set. -/
theorem diagnose_tail_hasFail {r0 : Report} (dev : RdmaDevice) (env : HostEnv)
    (hf : r0.hasFail = true) :
    (checkRdmaNetnsMode (checkNetInterface (checkKernelModules r0 env) dev env)
        dev.pciAddress env).hasFail = true :=
  hasFail_checkRdmaNetnsMode _ _ (hasFail_checkNetInterface _ _ (hasFail_checkKernelModules _ hf))

/-! ## Helper lemmas: `createCDISpec` -/

theorem validateSpec_builtSpec (rp rn : Str) (ds : List CdiDevice) :
    validateSpec { version := cdiCurrentVersion, kind := rp ++ str "/" ++ rn, devices := ds }
      = if ds = [] then .error (str "spec must contain at least one device") else .ok () := by
  unfold validateSpec
  have hk : rp ++ str "/" ++ rn ≠ [] := by
    intro h0
    have hl := congrArg List.length h0
    rw [List.length_append, List.length_append] at hl
    simp [str] at hl
  dsimp only
  rw [if_neg hk]
  by_cases hd : ds = []
  · subst hd
    simp
  · rw [if_neg (by simpa [List.length_eq_zero] using hd), if_neg hd]

theorem createCDISpec_empty_devices (rp rn : Str) (outDir format : Str) (fs : FSState) :
    createCDISpec rp rn [] outDir format fs
      = (.error (.invalidSpec (str "spec must contain at least one device")),
         fs.mkdirAll outDir) := by
  unfold createCDISpec
  dsimp only
  rw [List.map_nil, validateSpec_builtSpec]
  rfl

theorem createCDISpec_bad_format {devices : List RdmaDevice} (rp rn : Str)
    (outDir format : Str) (fs : FSState) (hd : devices ≠ [])
    (hj : toLowerStr format ≠ str "json") (hy : toLowerStr format ≠ str "yaml") :
    createCDISpec rp rn devices outDir format fs
      = (.error (.cannotMarshal (.unsupportedFormat format)), fs.mkdirAll outDir) := by
  unfold createCDISpec
  dsimp only
  rw [validateSpec_builtSpec, if_neg (by simpa [List.map_eq_nil_iff] using hd)]
  unfold marshalSpec
  rw [if_neg hj, if_neg hy]

theorem createCDISpec_ok {devices : List RdmaDevice} (rp rn : Str)
    (outDir format : Str) (fs : FSState) (hd : devices ≠ [])
    (hfmt : toLowerStr format = str "json" ∨ toLowerStr format = str "yaml") :
    (createCDISpec rp rn devices outDir format fs).1 = .ok () := by
  unfold createCDISpec
  dsimp only
  rw [validateSpec_builtSpec, if_neg (by simpa [List.map_eq_nil_iff] using hd)]
  unfold marshalSpec
  rcases hfmt with hf | hf
  · rw [if_pos hf]
  · rw [hf]
    by_cases hj : (str "yaml" : Str) = str "json"
    · exact absurd hj (by decide)
    · rw [if_neg hj, if_pos rfl]

theorem checkCharDevices_none {r : Report} {dev : RdmaDevice} (h : dev.rdmaDevices = []) :
    checkCharDevices r dev
      = r.add { check := str "rdma_devices", severity := .fail,
                message := .noRdmaCharDevices, device := dev.pciAddress } := by
  unfold checkCharDevices
  rw [if_pos h]

theorem checkCharDevices_err {r : Report} {dev : RdmaDevice} {m : Str}
    (h : dev.rdmaDevices ≠ []) (hv : verifyRdmaDevices dev.rdmaDevices = .error m) :
    checkCharDevices r dev
      = r.add { check := str "rdma_devices", severity := .fail,
                message := .missingRequiredTypes dev.rdmaDevices.length m,
                device := dev.pciAddress } := by
  unfold checkCharDevices
  rw [if_neg h, hv]

theorem checkCharDevices_pass {r : Report} {dev : RdmaDevice}
    (h : dev.rdmaDevices ≠ []) (hv : verifyRdmaDevices dev.rdmaDevices = .ok ()) :
    checkCharDevices r dev
      = r.add { check := str "rdma_devices", severity := .pass,
                message := .allRequiredPresent dev.rdmaDevices.length dev.rdmaDevices,
                device := dev.pciAddress } := by
  unfold checkCharDevices
  rw [if_neg h, hv]

theorem wf_mergeReports (reports : List Report) : ReportWf (mergeReports reports) := by
  constructor
  · rw [mergeReports_hasWarn, mergeReports_results, List.any_eq_true]
    simp only [beq_iff_eq]
  · rw [mergeReports_hasFail, mergeReports_results, List.any_eq_true]
    simp only [beq_iff_eq]

/-! ## Claim theorems -/

/-- C1 (amended: the `name` argument must contain no path separator): for every
directory contents and every prefix, separator-free name and dryRun flag,
`CleanupSpecs` only removes files whose base name starts with the literal token
`rdma-cdi` followed by an underscore and which end in `.json` or `.yaml`; every
file failing either condition is still present afterwards. -/
theorem cleanupSpecs_removes_only_own_specs (fs : List Str) (dir pfx name : Str)
    (dryRun : Bool) (hname : '/' ∉ name) :
    (∀ p ∈ (cleanupSpecs fs dir pfx name dryRun).1,
        str "rdma-cdi_" <+: goBase p ∧ (str ".json" <:+ p ∨ str ".yaml" <:+ p)) ∧
    (∀ p ∈ fs, ¬(str "rdma-cdi_" <+: goBase p ∧ (str ".json" <:+ p ∨ str ".yaml" <:+ p)) →
        p ∈ (cleanupSpecs fs dir pfx name dryRun).2) := by
  unfold cleanupSpecs
  dsimp only
  constructor
  · intro p hp
    exact cleanupCandidates_good (slash_not_mem_replaceSlashes pfx) hname p
      (cleanupFiles_removed_subset p hp)
  · intro p hpfs hbad
    refine cleanupFiles_keeps hpfs ?_
    intro hpc
    exact hbad (cleanupCandidates_good (slash_not_mem_replaceSlashes pfx) hname p hpc)

/-- C1 counterexample: with a `name` containing a path separator
(`name = "evil/x"`), `CleanupSpecs` removes the file
`/d/rdma-cdi_p_evil/x.json`, whose base name `x.json` does not begin with
`rdma-cdi_` — refuting the claim as stated for every name argument. -/
theorem cleanupSpecs_slash_name_counterexample :
    (cleanupSpecs [str "/d/rdma-cdi_p_evil/x.json"]
        (str "/d") (str "p") (str "evil/x") false).1
      = [str "/d/rdma-cdi_p_evil/x.json"] ∧
    (cleanupSpecs [str "/d/rdma-cdi_p_evil/x.json"]
        (str "/d") (str "p") (str "evil/x") false).2 = [] ∧
    ¬ (str "rdma-cdi_" <+: goBase (str "/d/rdma-cdi_p_evil/x.json")) := by
  refine ⟨by decide, by decide, ?_⟩
  intro h
  exact absurd ((List.isPrefixOf_iff_prefix).mpr h) (by decide)

/-- C1 witness: the safety theorem applied at a concrete directory holding one
matching spec file and one decoy. -/
theorem cleanupSpecs_removes_only_own_specs_witness :
    (∀ p ∈ (cleanupSpecs [str "/etc/cdi/rdma-cdi_rdma_net1.json", str "/etc/cdi/decoy.txt"]
        (str "/etc/cdi") (str "rdma") (str "net1") false).1,
        str "rdma-cdi_" <+: goBase p ∧ (str ".json" <:+ p ∨ str ".yaml" <:+ p)) ∧
    (∀ p ∈ [str "/etc/cdi/rdma-cdi_rdma_net1.json", str "/etc/cdi/decoy.txt"],
        ¬(str "rdma-cdi_" <+: goBase p ∧ (str ".json" <:+ p ∨ str ".yaml" <:+ p)) →
        p ∈ (cleanupSpecs [str "/etc/cdi/rdma-cdi_rdma_net1.json", str "/etc/cdi/decoy.txt"]
            (str "/etc/cdi") (str "rdma") (str "net1") false).2) :=
  cleanupSpecs_removes_only_own_specs _ _ _ _ false (by decide)

/-- C2: the required-device-type validation fails exactly when some required
token (`rdma_cm`, `umad`, `uverbs`) is contained in the base name of no path;
the outcome is invariant under permutations of the path list and under
duplicated entries. -/
theorem verifyRdmaDevices_fails_iff (paths paths' : List Str) (dup : Str)
    (hperm : paths.Perm paths') (hdup : dup ∈ paths) :
    ((verifyRdmaDevices paths ≠ .ok ()) ↔
      ∃ req ∈ RequiredRdmaDevices, ∀ p ∈ paths, strContains (goBase p) req = false) ∧
    verifyRdmaDevices paths = verifyRdmaDevices paths' ∧
    verifyRdmaDevices (dup :: paths) = verifyRdmaDevices paths := by
  refine ⟨?_, ?_, ?_⟩
  · have hmain : verifyRdmaDevices paths = .ok ()
        ↔ ∀ req ∈ RequiredRdmaDevices, ∃ p ∈ paths, strContains (goBase p) req = true := by
      rw [verifyRdmaDevices, verifyLoop_ok_iff]
      refine forall₂_congr ?_
      intro req _
      exact List.any_eq_true
    rw [Ne, hmain]
    constructor
    · intro h
      by_contra hno
      push_neg at hno
      apply h
      intro req hreq
      have hin := hno req hreq
      obtain ⟨p, hp, hf⟩ := hin
      exact ⟨p, hp, by simpa using hf⟩
    · rintro ⟨req, hreq, hall⟩ hforall
      obtain ⟨p, hp, hf⟩ := hforall req hreq
      rw [hall p hp] at hf
      exact absurd hf (by decide)
  · exact verifyLoop_congr (fun req => perm_any hperm _) _
  · exact verifyLoop_congr (fun req => dup_any hdup _) _

/-- C2 witness: applied to a concrete complete device list, a permutation of
it, and a duplicated entry. -/
theorem verifyRdmaDevices_fails_iff_witness :
    ((verifyRdmaDevices [str "/dev/infiniband/rdma_cm", str "/dev/infiniband/umad0",
          str "/dev/infiniband/uverbs0"] ≠ .ok ()) ↔
      ∃ req ∈ RequiredRdmaDevices,
        ∀ p ∈ [str "/dev/infiniband/rdma_cm", str "/dev/infiniband/umad0",
            str "/dev/infiniband/uverbs0"], strContains (goBase p) req = false) ∧
    verifyRdmaDevices [str "/dev/infiniband/rdma_cm", str "/dev/infiniband/umad0",
        str "/dev/infiniband/uverbs0"]
      = verifyRdmaDevices [str "/dev/infiniband/uverbs0", str "/dev/infiniband/umad0",
          str "/dev/infiniband/rdma_cm"] ∧
    verifyRdmaDevices (str "/dev/infiniband/umad0" ::
        [str "/dev/infiniband/rdma_cm", str "/dev/infiniband/umad0",
          str "/dev/infiniband/uverbs0"])
      = verifyRdmaDevices [str "/dev/infiniband/rdma_cm", str "/dev/infiniband/umad0",
          str "/dev/infiniband/uverbs0"] :=
  verifyRdmaDevices_fails_iff _ _ _ (by decide) (by decide)

/-- C3: `SpecFileName` is the pure concatenation
`rdma-cdi_<safePrefix>_<name>.<format>` where `safePrefix` maps each `'/'` of
the prefix to `'_'` and leaves every other character unchanged: the replacement
has the same length, changes exactly `count '/'` positions, changes a position
only at a slash, and sends each slash to `'_'`. -/
theorem specFileName_characterization (pfx name format : Str) :
    specFileName pfx name format
      = filePrefixStr ++ str "_" ++ pfx.map (fun c => if c = '/' then '_' else c)
          ++ str "_" ++ name ++ str "." ++ format ∧
    (replaceSlashes pfx).length = pfx.length ∧
    (pfx.zip (replaceSlashes pfx)).countP (fun ab => ab.1 != ab.2) = pfx.count '/' ∧
    (pfx.zip (replaceSlashes pfx)).all (fun ab => ab.1 == '/' || ab.2 == ab.1) = true ∧
    (pfx.zip (replaceSlashes pfx)).all (fun ab => (!(ab.1 == '/')) || ab.2 == '_') = true := by
  refine ⟨?_, ?_, countP_zip_replaceSlashes pfx, all_zip_replaceSlashes_unchanged pfx,
    all_zip_replaceSlashes_slash pfx⟩
  · rw [specFileName, replaceSlashes_eq_map]
  · rw [replaceSlashes_eq_map]
    exact List.length_map _ _

/-- C4: with a non-empty name (and a non-empty directory argument), the
reported set of `CleanupSpecs` is exactly the existing members of the two
candidate paths built from `SpecFileName` with extensions json and yaml — so at
most two files are touched, all of them existing candidates, and a missing
candidate is skipped. -/
theorem cleanupSpecs_exact_name (fs : List Str) (dir pfx name : Str) (dryRun : Bool)
    (hname : name ≠ []) (hdir : dir ≠ []) :
    (cleanupSpecs fs dir pfx name dryRun).1
        = [joinPath dir (specFileName pfx name (str "json")),
           joinPath dir (specFileName pfx name (str "yaml"))].filter
            (fun p => decide (p ∈ fs)) ∧
    (cleanupSpecs fs dir pfx name dryRun).1.length ≤ 2 ∧
    ∀ p ∈ (cleanupSpecs fs dir pfx name dryRun).1, p ∈ fs := by
  have hext : ∀ A e : Str, A ++ str "." ++ e = A ++ (str "." ++ e) := by
    intro A e
    rw [List.append_assoc]
  have hdj : joinPath dir (specFileName pfx name (str "json"))
      = joinPath dir (filePrefixStr ++ str "_" ++ replaceSlashes pfx ++ str "_" ++ name
          ++ str ".json") := by
    unfold specFileName
    rw [hext, show str "." ++ str "json" = str ".json" by decide]
  have hdy : joinPath dir (specFileName pfx name (str "yaml"))
      = joinPath dir (filePrefixStr ++ str "_" ++ replaceSlashes pfx ++ str "_" ++ name
          ++ str ".yaml") := by
    unfold specFileName
    rw [hext, show str "." ++ str "yaml" = str ".yaml" by decide]
  have hne := joinPath_json_ne_yaml dir dir
    (filePrefixStr ++ str "_" ++ replaceSlashes pfx ++ str "_" ++ name)
    (filePrefixStr ++ str "_" ++ replaceSlashes pfx ++ str "_" ++ name)
  unfold cleanupSpecs
  dsimp only
  rw [if_neg hdir]
  unfold cleanupCandidates
  rw [if_pos hname, hdj, hdy]
  have hnd : List.Nodup
      [joinPath dir (filePrefixStr ++ str "_" ++ replaceSlashes pfx ++ str "_" ++ name
          ++ str ".json"),
       joinPath dir (filePrefixStr ++ str "_" ++ replaceSlashes pfx ++ str "_" ++ name
          ++ str ".yaml")] := by
    refine List.nodup_cons.mpr ⟨?_, List.nodup_singleton _⟩
    simp only [List.mem_singleton]
    exact hne
  have hrm : (cleanupFiles fs
      [joinPath dir (filePrefixStr ++ str "_" ++ replaceSlashes pfx ++ str "_" ++ name
          ++ str ".json"),
       joinPath dir (filePrefixStr ++ str "_" ++ replaceSlashes pfx ++ str "_" ++ name
          ++ str ".yaml")] dryRun).1
      = [joinPath dir (filePrefixStr ++ str "_" ++ replaceSlashes pfx ++ str "_" ++ name
          ++ str ".json"),
         joinPath dir (filePrefixStr ++ str "_" ++ replaceSlashes pfx ++ str "_" ++ name
          ++ str ".yaml")].filter (fun p => decide (p ∈ fs)) := by
    cases dryRun with
    | true => rw [cleanupFiles_dry]
    | false => rw [cleanupFiles_real_removed fs hnd]
  refine ⟨hrm, ?_, ?_⟩
  · rw [hrm]
    exact le_trans (List.length_filter_le _ _) (by simp)
  · intro p hp
    rw [hrm] at hp
    exact of_decide_eq_true (List.mem_filter.mp hp).2

/-- C4 witness: the exact-name characterization applied to a directory holding
the json candidate, a decoy, and no yaml candidate. -/
theorem cleanupSpecs_exact_name_witness :
    ((cleanupSpecs [str "/etc/cdi/rdma-cdi_rdma_net1.json", str "/etc/cdi/decoy.json"]
        (str "/etc/cdi") (str "rdma") (str "net1") false).1
        = [joinPath (str "/etc/cdi") (specFileName (str "rdma") (str "net1") (str "json")),
           joinPath (str "/etc/cdi") (specFileName (str "rdma") (str "net1") (str "yaml"))].filter
            (fun p => decide (p ∈ [str "/etc/cdi/rdma-cdi_rdma_net1.json",
              str "/etc/cdi/decoy.json"])) ∧
    (cleanupSpecs [str "/etc/cdi/rdma-cdi_rdma_net1.json", str "/etc/cdi/decoy.json"]
        (str "/etc/cdi") (str "rdma") (str "net1") false).1.length ≤ 2 ∧
    ∀ p ∈ (cleanupSpecs [str "/etc/cdi/rdma-cdi_rdma_net1.json", str "/etc/cdi/decoy.json"]
        (str "/etc/cdi") (str "rdma") (str "net1") false).1,
      p ∈ [str "/etc/cdi/rdma-cdi_rdma_net1.json", str "/etc/cdi/decoy.json"]) :=
  cleanupSpecs_exact_name _ _ _ _ false (by decide) (by decide)

/-- C5: on a duplicate-free directory listing, a dry-run cleanup reports
exactly the paths a real run would remove, and leaves the directory
unchanged. -/
theorem cleanupSpecs_dryRun_eq (fs : List Str) (dir pfx name : Str) (hfs : fs.Nodup) :
    (cleanupSpecs fs dir pfx name true).1 = (cleanupSpecs fs dir pfx name false).1 ∧
    (cleanupSpecs fs dir pfx name true).2 = fs := by
  unfold cleanupSpecs
  dsimp only
  have hnd := cleanupCandidates_nodup fs (if dir = [] then defaultOutputDir else dir)
    (replaceSlashes pfx) name hfs
  constructor
  · rw [cleanupFiles_dry, cleanupFiles_real_removed fs hnd]
  · rw [cleanupFiles_dry]

/-- C5 witness: dry run versus real run on a concrete two-file directory using
the prefix-glob mode. -/
theorem cleanupSpecs_dryRun_eq_witness :
    ((cleanupSpecs [str "/etc/cdi/rdma-cdi_rdma_a.json", str "/etc/cdi/decoy.json"]
        [] (str "rdma") [] true).1
      = (cleanupSpecs [str "/etc/cdi/rdma-cdi_rdma_a.json", str "/etc/cdi/decoy.json"]
          [] (str "rdma") [] false).1 ∧
    (cleanupSpecs [str "/etc/cdi/rdma-cdi_rdma_a.json", str "/etc/cdi/decoy.json"]
        [] (str "rdma") [] true).2
      = [str "/etc/cdi/rdma-cdi_rdma_a.json", str "/etc/cdi/decoy.json"]) :=
  cleanupSpecs_dryRun_eq _ _ _ _ (by decide)

/-- C6: `MergeReports` concatenates the inputs' result lists in argument order
and re-derives `hasWarn` / `hasFail` as the logical OR, over all constituent
results, of the severity being Warn / Fail. -/
theorem mergeReports_concat_and_flags (reports : List Report) :
    (mergeReports reports).results = (reports.map Report.results).flatten ∧
    (mergeReports reports).hasWarn
      = ((reports.map Report.results).flatten.any
          (fun cr => cr.severity == Severity.warn)) ∧
    (mergeReports reports).hasFail
      = ((reports.map Report.results).flatten.any
          (fun cr => cr.severity == Severity.fail)) :=
  ⟨mergeReports_results reports, mergeReports_hasWarn reports, mergeReports_hasFail reports⟩

/-- C7: `CreateCDISpec` succeeds exactly when the device list is non-empty and
the lowercased format is json or yaml; an empty device list yields the
validation error, an unsupported format yields a format error carrying the
offending format string, and in every failing case no file is written. -/
theorem createCDISpec_validation_and_format (rp rn : Str) (devices : List RdmaDevice)
    (outDir format : Str) (fs : FSState) :
    ((createCDISpec rp rn devices outDir format fs).1 = .ok ()
        ↔ devices ≠ [] ∧ (toLowerStr format = str "json" ∨ toLowerStr format = str "yaml")) ∧
    (devices = [] →
      createCDISpec rp rn devices outDir format fs
        = (.error (.invalidSpec (str "spec must contain at least one device")),
           fs.mkdirAll outDir)) ∧
    (devices ≠ [] → toLowerStr format ≠ str "json" → toLowerStr format ≠ str "yaml" →
      createCDISpec rp rn devices outDir format fs
        = (.error (.cannotMarshal (.unsupportedFormat format)), fs.mkdirAll outDir)) ∧
    ((createCDISpec rp rn devices outDir format fs).1 ≠ .ok () →
      (createCDISpec rp rn devices outDir format fs).2.files = fs.files) := by
  refine ⟨⟨?_, ?_⟩, ?_, ?_, ?_⟩
  · intro hok
    by_cases hd : devices = []
    · rw [hd, createCDISpec_empty_devices] at hok
      exact absurd hok (by simp)
    · refine ⟨hd, ?_⟩
      by_cases hj : toLowerStr format = str "json"
      · exact Or.inl hj
      · by_cases hy : toLowerStr format = str "yaml"
        · exact Or.inr hy
        · rw [createCDISpec_bad_format rp rn outDir format fs hd hj hy] at hok
          exact absurd hok (by simp)
  · rintro ⟨hd, hfmt⟩
    exact createCDISpec_ok rp rn outDir format fs hd hfmt
  · intro hd
    rw [hd]
    exact createCDISpec_empty_devices rp rn outDir format fs
  · intro hd hj hy
    exact createCDISpec_bad_format rp rn outDir format fs hd hj hy
  · intro hne
    by_cases hd : devices = []
    · rw [hd, createCDISpec_empty_devices]
      rfl
    · by_cases hj : toLowerStr format = str "json"
      · exact absurd (createCDISpec_ok rp rn outDir format fs hd (Or.inl hj)) hne
      · by_cases hy : toLowerStr format = str "yaml"
        · exact absurd (createCDISpec_ok rp rn outDir format fs hd (Or.inr hy)) hne
        · rw [createCDISpec_bad_format rp rn outDir format fs hd hj hy]
          rfl

/-- C7 witness: the characterization applied at an empty device list with an
unsupported format over an empty filesystem. -/
theorem createCDISpec_validation_and_format_witness :
    (((createCDISpec (str "vendor.com") (str "rdma") [] (str "/etc/cdi") (str "xml")
        ⟨[], []⟩).1 = .ok ()
        ↔ ([] : List RdmaDevice) ≠ []
          ∧ (toLowerStr (str "xml") = str "json" ∨ toLowerStr (str "xml") = str "yaml")) ∧
    (([] : List RdmaDevice) = [] →
      createCDISpec (str "vendor.com") (str "rdma") [] (str "/etc/cdi") (str "xml") ⟨[], []⟩
        = (.error (.invalidSpec (str "spec must contain at least one device")),
           FSState.mkdirAll ⟨[], []⟩ (str "/etc/cdi"))) ∧
    (([] : List RdmaDevice) ≠ [] → toLowerStr (str "xml") ≠ str "json" →
        toLowerStr (str "xml") ≠ str "yaml" →
      createCDISpec (str "vendor.com") (str "rdma") [] (str "/etc/cdi") (str "xml") ⟨[], []⟩
        = (.error (.cannotMarshal (.unsupportedFormat (str "xml"))),
           FSState.mkdirAll ⟨[], []⟩ (str "/etc/cdi"))) ∧
    ((createCDISpec (str "vendor.com") (str "rdma") [] (str "/etc/cdi") (str "xml")
        ⟨[], []⟩).1 ≠ .ok () →
      (createCDISpec (str "vendor.com") (str "rdma") [] (str "/etc/cdi") (str "xml")
        ⟨[], []⟩).2.files = (⟨[], []⟩ : FSState).files)) :=
  createCDISpec_validation_and_format (str "vendor.com") (str "rdma") [] (str "/etc/cdi")
    (str "xml") ⟨[], []⟩

/-- C8: the character-device check of `DiagnoseDevice` yields a Fail result
(check `rdma_devices`, carrying the device's PCI address) when the device has
no character devices — and then the report's `hasFail` flag is set — a Fail
carrying the validation detail when the paths are present but fail the
required-types validation, and a Pass when the validation succeeds. -/
theorem diagnoseDevice_chardev_check (dev : RdmaDevice) (env : HostEnv) :
    (dev.rdmaDevices = [] →
      ({ check := str "rdma_devices", severity := .fail, message := .noRdmaCharDevices,
         device := dev.pciAddress } : CheckResult) ∈ (diagnoseDevice dev env).results ∧
      (diagnoseDevice dev env).hasFail = true) ∧
    (∀ m : Str, dev.rdmaDevices ≠ [] → verifyRdmaDevices dev.rdmaDevices = .error m →
      ({ check := str "rdma_devices", severity := .fail,
         message := .missingRequiredTypes dev.rdmaDevices.length m,
         device := dev.pciAddress } : CheckResult) ∈ (diagnoseDevice dev env).results) ∧
    (dev.rdmaDevices ≠ [] → verifyRdmaDevices dev.rdmaDevices = .ok () →
      ({ check := str "rdma_devices", severity := .pass,
         message := .allRequiredPresent dev.rdmaDevices.length dev.rdmaDevices,
         device := dev.pciAddress } : CheckResult) ∈ (diagnoseDevice dev env).results) := by
  refine ⟨?_, ?_, ?_⟩
  · intro h
    constructor
    · unfold diagnoseDevice
      rw [checkCharDevices_none h]
      exact diagnose_tail_mono dev env (mem_add_self _ _)
    · unfold diagnoseDevice
      rw [checkCharDevices_none h]
      refine diagnose_tail_hasFail dev env ?_
      rw [add_hasFail]
      simp
  · intro m h hv
    unfold diagnoseDevice
    rw [checkCharDevices_err h hv]
    exact diagnose_tail_mono dev env (mem_add_self _ _)
  · intro h hv
    unfold diagnoseDevice
    rw [checkCharDevices_pass h hv]
    exact diagnose_tail_mono dev env (mem_add_self _ _)

/-- C8 witness: the character-device check theorem applied to a concrete device
without character devices in a bare host environment. -/
theorem diagnoseDevice_chardev_check_witness :
    ((⟨str "0000:17:00.2", [], [], [], [], [], [], []⟩ : RdmaDevice).rdmaDevices = [] →
      ({ check := str "rdma_devices", severity := .fail, message := .noRdmaCharDevices,
         device := (⟨str "0000:17:00.2", [], [], [], [], [], [], []⟩ : RdmaDevice).pciAddress }
        : CheckResult)
        ∈ (diagnoseDevice ⟨str "0000:17:00.2", [], [], [], [], [], [], []⟩
            ⟨[], fun _ => none, none⟩).results ∧
      (diagnoseDevice ⟨str "0000:17:00.2", [], [], [], [], [], [], []⟩
          ⟨[], fun _ => none, none⟩).hasFail = true) ∧
    (∀ m : Str,
      (⟨str "0000:17:00.2", [], [], [], [], [], [], []⟩ : RdmaDevice).rdmaDevices ≠ [] →
      verifyRdmaDevices
          (⟨str "0000:17:00.2", [], [], [], [], [], [], []⟩ : RdmaDevice).rdmaDevices
        = .error m →
      ({ check := str "rdma_devices", severity := .fail,
         message := .missingRequiredTypes
          (⟨str "0000:17:00.2", [], [], [], [], [], [], []⟩ : RdmaDevice).rdmaDevices.length m,
         device := (⟨str "0000:17:00.2", [], [], [], [], [], [], []⟩ : RdmaDevice).pciAddress }
        : CheckResult)
        ∈ (diagnoseDevice ⟨str "0000:17:00.2", [], [], [], [], [], [], []⟩
            ⟨[], fun _ => none, none⟩).results) ∧
    ((⟨str "0000:17:00.2", [], [], [], [], [], [], []⟩ : RdmaDevice).rdmaDevices ≠ [] →
      verifyRdmaDevices
          (⟨str "0000:17:00.2", [], [], [], [], [], [], []⟩ : RdmaDevice).rdmaDevices
        = .ok () →
      ({ check := str "rdma_devices", severity := .pass,
         message := .allRequiredPresent
          (⟨str "0000:17:00.2", [], [], [], [], [], [], []⟩ : RdmaDevice).rdmaDevices.length
          (⟨str "0000:17:00.2", [], [], [], [], [], [], []⟩ : RdmaDevice).rdmaDevices,
         device := (⟨str "0000:17:00.2", [], [], [], [], [], [], []⟩ : RdmaDevice).pciAddress }
        : CheckResult)
        ∈ (diagnoseDevice ⟨str "0000:17:00.2", [], [], [], [], [], [], []⟩
            ⟨[], fun _ => none, none⟩).results) :=
  diagnoseDevice_chardev_check ⟨str "0000:17:00.2", [], [], [], [], [], [], []⟩
    ⟨[], fun _ => none, none⟩

/-- C9: the flag invariant — `hasWarn` (resp. `hasFail`) holds exactly when a
Warn (resp. Fail) result is present — holds for the empty report, is preserved
by `add`, and holds for every report produced by `MergeReports` and
`DiagnoseDevice`. -/
theorem report_flag_invariant (r : Report) (cr : CheckResult) (reports : List Report)
    (dev : RdmaDevice) (env : HostEnv) (h : ReportWf r) :
    ReportWf emptyReport ∧ ReportWf (r.add cr) ∧ ReportWf (mergeReports reports) ∧
    ReportWf (diagnoseDevice dev env) :=
  ⟨wf_emptyReport, wf_add cr h, wf_mergeReports reports, wf_diagnoseDevice dev env⟩

/-- C9 witness: the invariant bundle applied to the empty report, a concrete
Warn result, a concrete report list, and a concrete device and host state. -/
theorem report_flag_invariant_witness :
    ReportWf emptyReport ∧
    ReportWf (emptyReport.add
      { check := str "net_interface", severity := .warn, message := .noInterface,
        device := str "0000:17:00.2" }) ∧
    ReportWf (mergeReports [emptyReport]) ∧
    ReportWf (diagnoseDevice ⟨str "0000:17:00.2", [], [], [], [], [], [], []⟩
      ⟨[], fun _ => none, none⟩) :=
  report_flag_invariant emptyReport
    { check := str "net_interface", severity := .warn, message := .noInterface,
      device := str "0000:17:00.2" }
    [emptyReport] ⟨str "0000:17:00.2", [], [], [], [], [], [], []⟩
    ⟨[], fun _ => none, none⟩ wf_emptyReport

/-- C10: `CreateCDISpec` creates the output directory before validating and
before the format check, so a call failing either check still creates a
previously absent output directory — the filesystem changes — while no file is
written. -/
theorem createCDISpec_mkdir_despite_error (rp rn : Str) (devices : List RdmaDevice)
    (outDir format : Str) (fs : FSState)
    (herr : devices = [] ∨ (toLowerStr format ≠ str "json" ∧ toLowerStr format ≠ str "yaml"))
    (hnew : outDir ∉ fs.dirs) :
    (createCDISpec rp rn devices outDir format fs).1 ≠ .ok () ∧
    (createCDISpec rp rn devices outDir format fs).2.dirs = fs.dirs ++ [outDir] ∧
    (createCDISpec rp rn devices outDir format fs).2.files = fs.files ∧
    (createCDISpec rp rn devices outDir format fs).2 ≠ fs := by
  have hfs2 : (createCDISpec rp rn devices outDir format fs).2 = fs.mkdirAll outDir ∧
      (createCDISpec rp rn devices outDir format fs).1 ≠ .ok () := by
    by_cases hd : devices = []
    · rw [hd, createCDISpec_empty_devices]
      exact ⟨rfl, by simp⟩
    · rcases herr with hd' | ⟨hj, hy⟩
      · exact absurd hd' hd
      · rw [createCDISpec_bad_format rp rn outDir format fs hd hj hy]
        exact ⟨rfl, by simp⟩
  have hdirs : (fs.mkdirAll outDir).dirs = fs.dirs ++ [outDir] := by
    unfold FSState.mkdirAll
    rw [if_neg hnew]
  refine ⟨hfs2.2, by rw [hfs2.1, hdirs], by rw [hfs2.1]; rfl, ?_⟩
  intro he
  have hd2 : (createCDISpec rp rn devices outDir format fs).2.dirs = fs.dirs := by rw [he]
  rw [hfs2.1, hdirs] at hd2
  have hlen := congrArg List.length hd2
  rw [List.length_append] at hlen
  simp at hlen

/-- C10 witness: a validation-failing call (empty device list) on a filesystem
without the output directory creates the directory and writes no file. -/
theorem createCDISpec_mkdir_despite_error_witness :
    (createCDISpec (str "v") (str "r") [] (str "/etc/cdi") (str "json") ⟨[], []⟩).1
        ≠ .ok () ∧
    (createCDISpec (str "v") (str "r") [] (str "/etc/cdi") (str "json")
        ⟨[], []⟩).2.dirs = ([] : List Str) ++ [str "/etc/cdi"] ∧
    (createCDISpec (str "v") (str "r") [] (str "/etc/cdi") (str "json")
        ⟨[], []⟩).2.files = (⟨[], []⟩ : FSState).files ∧
    (createCDISpec (str "v") (str "r") [] (str "/etc/cdi") (str "json")
        ⟨[], []⟩).2 ≠ (⟨[], []⟩ : FSState) :=
  createCDISpec_mkdir_despite_error (str "v") (str "r") [] (str "/etc/cdi") (str "json")
    ⟨[], []⟩ (Or.inl rfl) (by decide)

end RdmaCdi
